import Mathlib

/-!
Verification of the Airport ETL pipeline (scraper, normalizer, persist,
connection retry, analyzer) as a shallow embedding in Lean.

Each definition below embeds one function of the repository:
- `crawlLoop` / `crawl` embed the reveal-more loop of
  `fetch_chopin_departures_selenium` (scraper.py lines 215-244);
- `parseRow` / `parseDepartures` embed `parse_departures` (lines 248-276);
- `normalizeField` / `keptRows` / `saveToPostgres` embed `save_to_postgres`
  (lines 325-363), with the raw table modelled as a list of rows and the
  databases ON CONFLICT DO NOTHING primitive as `insertOnConflict`;
- `retryAux` / `getDbEngine` embed `get_db_engine`
  (scraper.py lines 296-322, identical in analyzer.py lines 23-39);
- `cleanRows`, `valueCounts`, `sortBy`, the three table builders and
  `runAnalysis` embed `run_analysis` (analyzer.py lines 42-99).
-/

namespace AirportEtl

/-! ## Extraction loop (fetch_chopin_departures_selenium) -/

/-- A listing source, as the extraction loop observes it: after `j`
reveal-more clicks the page shows `rowCount j` table rows, and the
reveal-more button is present iff `hasButton j`. -/
structure Listing where
  rowCount : Nat → Nat
  hasButton : Nat → Bool

/-- One state-step embedding of the while-loop in
`fetch_chopin_departures_selenium`: state is `(prev, no_change_rounds,
clicks so far)`; `prev` starts at `-1` in the code, so it is an `Int`.
The loop measures the row count, bumps or resets `no_change_rounds`,
stops once it reaches 2 or once the button is absent, otherwise clicks
and repeats.  `fuel` bounds the number of loop-body entries; the result
is the number of clicks performed, or `none` if `fuel` ran out. -/
def crawlLoop (L : Listing) : Nat → Int → Nat → Nat → Option Nat
  | 0, _, _, _ => none
  | fuel + 1, prev, nc, j =>
    let n : Int := L.rowCount j
    let nc' := if n = prev then nc + 1 else 0
    if 2 ≤ nc' then some j
    else if L.hasButton j = false then some j
    else crawlLoop L fuel n nc' (j + 1)

/-- The loop as entered by the code: `prev = -1`, `no_change_rounds = 0`,
no clicks performed yet. -/
def crawl (L : Listing) (fuel : Nat) : Option Nat :=
  crawlLoop L fuel (-1) 0 0

/-! ## Row parsing (parse_departures) -/

/-- Python `str(value)` on an optional cell: a missing value prints as
"None" (pandas stringifies missing values to "nan" or "None"; the code
maps both back to null, so one marker suffices for the model). -/
def pyStr : Option String → String
  | none => "None"
  | some s => s

/-- Python `str.strip()`: drop leading and trailing whitespace. -/
def pyStrip (s : String) : String :=
  ⟨((s.toList.dropWhile Char.isWhitespace).reverse.dropWhile
      Char.isWhitespace).reverse⟩

/-- Python `a or b` on two optional strings: an empty string is falsy
and falls through to `b`, as in `r.get("data-timesch") or
r.get("data_timesch")`. -/
def pyOrStr : Option String → Option String → Option String
  | some s, b => if s = "" then b else some s
  | none, b => b

/-- Python slicing `s[:n]` on a string. -/
def pyTake (s : String) (n : Nat) : String :=
  ⟨s.toList.take n⟩

/-- One `tr` element of the flight board: its two possible schedule-token
attributes and the raw text of its `td` cells. -/
structure TrRow where
  attrTimesch : Option String
  attrTimeschAlt : Option String
  cells : List String
deriving DecidableEq

/-- The effective schedule token of a row:
`r.get("data-timesch") or r.get("data_timesch")`. -/
def effTs (tr : TrRow) : Option String :=
  pyOrStr tr.attrTimesch tr.attrTimeschAlt

/-- A candidate record as built by `parse_departures` (all fields are
plain strings at this stage). -/
structure Candidate where
  airport : String
  flight_number : String
  destination : String
  airline : String
  scheduled_time : String
  data_timesch : String
deriving DecidableEq

/-- `cells[i].get_text(strip=True)`: the text of cell `i`, stripped. -/
def cellText (tr : TrRow) (i : Nat) : String :=
  pyStrip (tr.cells.getD i "")

/-- The per-row body of `parse_departures`: skip the row when the
schedule token is falsy or shorter than 8 characters, when its leading
date does not match `today`, or when fewer than 3 cells are present;
otherwise build the candidate from fixed cell offsets (airline from cell
4 when present, else the empty string). -/
def parseRow (today : String) (tr : TrRow) : Option Candidate :=
  match effTs tr with
  | none => none
  | some ts =>
    if ts = "" ∨ ts.length < 8 then none
    else if pyTake ts 8 ≠ today then none
    else if tr.cells.length < 3 then none
    else some
      { airport := "chopin"
        flight_number := cellText tr 2
        destination := cellText tr 1
        airline := if 4 < tr.cells.length then cellText tr 4 else ""
        scheduled_time := ts
        data_timesch := ts }

/-- `parse_departures`: parse every row, dropping the skipped ones. -/
def parseDepartures (today : String) (trs : List TrRow) : List Candidate :=
  trs.filterMap (parseRow today)

/-! ## Persistence (save_to_postgres) -/

/-- One row of the dataframe handed to `save_to_postgres`; each column
may hold a missing value. -/
structure DfRow where
  airport : Option String
  flight_number : Option String
  destination : Option String
  airline : Option String
  scheduled_time : Option String
  data_timesch : Option String
deriving DecidableEq

/-- The column normalization
`df[c].astype(str).str.strip().replace(nan/None to null)`: stringify,
strip, and map the two stringified-missing markers back to null.
Note that an empty string is left as an empty string. -/
def normalizeField (v : Option String) : Option String :=
  let s := pyStrip (pyStr v)
  if s = "nan" ∨ s = "None" then none else some s

/-- Normalization applied to the six columns the code iterates over. -/
def normalizeRow (c : DfRow) : DfRow :=
  { airport := normalizeField c.airport
    flight_number := normalizeField c.flight_number
    destination := normalizeField c.destination
    airline := normalizeField c.airline
    scheduled_time := normalizeField c.scheduled_time
    data_timesch := normalizeField c.data_timesch }

/-- Normalize all rows, then keep those whose `data_timesch` is not null
(`df = df[df["data_timesch"].notnull()]`), pairing each with its token. -/
def keptRows (df : List DfRow) : List (DfRow × String) :=
  (df.map normalizeRow).filterMap fun c =>
    match c.data_timesch with
    | some ts => some (c, ts)
    | none => none

def isLeapYear (y : Nat) : Bool :=
  y % 4 = 0 && (y % 100 ≠ 0 || y % 400 = 0)

def daysInMonth (y m : Nat) : Nat :=
  if m = 2 then (if isLeapYear y then 29 else 28)
  else if m = 4 ∨ m = 6 ∨ m = 9 ∨ m = 11 then 30
  else 31

def digitsOnly (s : String) : Bool :=
  s.toList.all Char.isDigit

def sliceNat (s : String) (start len : Nat) : Nat :=
  ((s.toList.drop start).take len).foldl
    (fun acc c => acc * 10 + (c.toNat - 48)) 0

/-- `datetime.strptime(st, "%Y%m%d%H%M%S")`, modelled on the 14-digit
tokens the listing produces: accept exactly 14 digits whose calendar
fields are in range, and encode the resulting airport-local instant as
the decimal value of the token.  (CPython strptime would also accept a
few shorter digit strings via 1-digit month/day/hour fields; the
listing tokens are always 14 digits, and every claim only depends on
whether parsing succeeds.)  A failed parse is `none`. -/
def parseYmdHms (s : String) : Option Nat :=
  if s.length = 14 ∧ digitsOnly s then
    let y := sliceNat s 0 4
    let mo := sliceNat s 4 2
    let d := sliceNat s 6 2
    let h := sliceNat s 8 2
    let mi := sliceNat s 10 2
    let se := sliceNat s 12 2
    if 1 ≤ y ∧ 1 ≤ mo ∧ mo ≤ 12 ∧ 1 ≤ d ∧ d ≤ daysInMonth y mo ∧
        h ≤ 23 ∧ mi ≤ 59 ∧ se ≤ 59 then
      some (sliceNat s 0 14)
    else none
  else none

/-- One row of the `flights_raw` table.  `scheduled_time` is the parsed
instant or null.  (When the normalized `scheduled_time` string is falsy
the code leaves it as is; the only falsy non-null string is the empty
string, whose TIMESTAMPTZ cast the datastore would reject, so the model
stores null there.) -/
structure RawRow where
  airport : Option String
  flight_number : Option String
  destination : Option String
  airline : Option String
  scheduled_time : Option Nat
  data_timesch : String
deriving DecidableEq

/-- Build the row bound to the INSERT parameters from a normalized
dataframe row: `scheduled_time` is parsed from its string when that is
truthy, null on parse failure. -/
def mkRawRow (c : DfRow) (ts : String) : RawRow :=
  { airport := c.airport
    flight_number := c.flight_number
    destination := c.destination
    airline := c.airline
    scheduled_time :=
      match c.scheduled_time with
      | some st => if st ≠ "" then parseYmdHms st else none
      | none => none
    data_timesch := ts }

/-- The conflict key declared by the tables primary key:
`(airport, flight_number, data_timesch)`. -/
def keyOf (r : RawRow) : Option String × Option String × String :=
  (r.airport, r.flight_number, r.data_timesch)

/-- Whether a row with key `k` is already present. -/
def hasKey (t : List RawRow) (k : Option String × Option String × String) :
    Bool :=
  t.any fun x => decide (keyOf x = k)

/-- `INSERT ... ON CONFLICT (airport, flight_number, data_timesch)
DO NOTHING`: append the row unless its key is already present, in which
case leave the table untouched. -/
def insertOnConflict (t : List RawRow) (r : RawRow) : List RawRow :=
  if hasKey t (keyOf r) then t else t ++ [r]

/-- `save_to_postgres`: on an empty dataframe return immediately;
normalize, filter null `data_timesch`, return if nothing is left; else
insert every remaining row with conflict-ignore.  The second component
is the Python return value: the function only ever executes a bare
`return` or falls off the end, so it is always `none` (Python `None`);
an integer return value would be `some n`. -/
def saveToPostgres (tbl : List RawRow) (df : List DfRow) :
    List RawRow × Option Nat :=
  if df.isEmpty then (tbl, none)
  else
    let rows := (keptRows df).map fun p => mkRawRow p.1 p.2
    if rows.isEmpty then (tbl, none)
    else (rows.foldl insertOnConflict tbl, none)

/-- Rows added to the table by one persist run. -/
def insertedCount (tbl : List RawRow) (df : List DfRow) : Nat :=
  (saveToPostgres tbl df).1.length - tbl.length

/-! ## Connection retry (get_db_engine) -/

/-- The `for attempt in range(max_retries)` body of `get_db_engine`:
`ok i` tells whether attempt `i` connects; `lastIdx = max_retries - 1`.
Returns (outcome, attempts made, list of sleeps performed).  Outcome
`Except.ok (some ())` is a returned engine, `Except.ok none` is falling
off the loop (Python returns None, only possible with zero iterations),
`Except.error ()` is the re-raised final exception.  A failed non-final
attempt sleeps `2 ** attempt` seconds and retries. -/
def retryAux (ok : Nat → Bool) (lastIdx : Nat) :
    Nat → Nat → Except Unit (Option Unit) × Nat × List Nat
  | 0, _ => (.ok none, 0, [])
  | remaining + 1, attempt =>
    if ok attempt then (.ok (some ()), 1, [])
    else if attempt = lastIdx then (.error (), 1, [])
    else
      let r := retryAux ok lastIdx remaining (attempt + 1)
      (r.1, r.2.1 + 1, 2 ^ attempt :: r.2.2)

/-- `get_db_engine(max_retries)` with connection outcomes `ok`. -/
def getDbEngine (ok : Nat → Bool) (maxRetries : Nat) :
    Except Unit (Option Unit) × Nat × List Nat :=
  retryAux ok (maxRetries - 1) maxRetries 0

/-! ## Aggregation (run_analysis) -/

/-- One row of `flights_raw` as the analyzer reads it: the three columns
it uses, each possibly null.  A non-null `scheduled_time` is an instant
in seconds; hour-of-day is extracted from it. -/
structure AnalyzerRow where
  destination : Option String
  airline : Option String
  scheduled_time : Option Nat
deriving DecidableEq

/-- The datastore as the analyzer sees it: the raw table and the three
derived tables. -/
structure DB where
  raw : List AnalyzerRow
  topDest : List (String × Nat)
  airlines : List (String × Nat)
  hourly : List (Nat × Nat)
deriving DecidableEq

/-- `df.dropna(subset=["destination", "airline", "scheduled_time"])`. -/
def cleanRows (raw : List AnalyzerRow) : List AnalyzerRow :=
  raw.filter fun r =>
    r.destination.isSome && r.airline.isSome && r.scheduled_time.isSome

/-- Hour-of-day of an instant, `dt.hour`. -/
def hourOf (t : Nat) : Nat := t / 3600 % 24

/-- `Series.value_counts()` before ordering: one entry per distinct
value with its number of occurrences. -/
def valueCounts {α : Type} [DecidableEq α] (l : List α) :
    List (α × Nat) :=
  l.dedup.map fun v => (v, l.count v)

/-- Stable insertion of `x` into `l`: before the first element `y` with
`le x y`. -/
def insertSorted {α : Type} (le : α → α → Bool) (x : α) :
    List α → List α
  | [] => [x]
  | y :: ys => if le x y then x :: y :: ys else y :: insertSorted le x ys

/-- Insertion sort by `le`, modelling the pandas orderings
(`value_counts` orders by descending count, `sort_index` by ascending
key). -/
def sortBy {α : Type} (le : α → α → Bool) (l : List α) : List α :=
  l.foldr (insertSorted le) []

/-- Descending-count order used by `value_counts`. -/
def descCount {α : Type} (a b : α × Nat) : Bool := b.2 ≤ a.2

/-- The destination values of the filtered rows. -/
def destList (raw : List AnalyzerRow) : List String :=
  (cleanRows raw).filterMap (·.destination)

/-- The airline values of the filtered rows. -/
def airlineList (raw : List AnalyzerRow) : List String :=
  (cleanRows raw).filterMap (·.airline)

/-- The hour-of-day values of the filtered rows. -/
def hourList (raw : List AnalyzerRow) : List Nat :=
  ((cleanRows raw).filterMap (·.scheduled_time)).map hourOf

/-- `df_clean["destination"].value_counts().head(10)`. -/
def topDestTable (raw : List AnalyzerRow) : List (String × Nat) :=
  (sortBy descCount (valueCounts (destList raw))).take 10

/-- `df_clean["airline"].value_counts().head(10)`. -/
def airlinesTable (raw : List AnalyzerRow) : List (String × Nat) :=
  (sortBy descCount (valueCounts (airlineList raw))).take 10

/-- `df_clean["scheduled_time"].dt.hour.value_counts().sort_index()`:
counts per hour, ordered ascending by hour, no head limit. -/
def hourlyTable (raw : List AnalyzerRow) : List (Nat × Nat) :=
  sortBy (fun a b => decide (a.1 ≤ b.1)) (valueCounts (hourList raw))

/-- `run_analysis`: read the raw table (on read failure, `readOk =
false`, log and return); return on an empty table and on an empty
filtered table; otherwise write the three derived tables in order
inside one try block, where `w1 w2 w3` tell whether each `to_sql`
replace succeeds.  Each `to_sql` runs in its own transaction, so a
failed replace leaves that table unchanged; the except block re-raises,
so the writes after the first failure are never attempted.  Returns the
datastore after the run and whether the run raised. -/
def runAnalysis (db : DB) (readOk w1 w2 w3 : Bool) : DB × Bool :=
  if readOk = false then (db, false)
  else if db.raw = [] then (db, false)
  else if cleanRows db.raw = [] then (db, false)
  else if w1 = false then (db, true)
  else
    let db1 := { db with topDest := topDestTable db.raw }
    if w2 = false then (db1, true)
    else
      let db2 := { db1 with airlines := airlinesTable db.raw }
      if w3 = false then (db2, true)
      else ({ db2 with hourly := hourlyTable db.raw }, false)

/-! ## Helper lemmas about conflict-free insertion -/

theorem hasKey_append (t₁ t₂ : List RawRow)
    (k : Option String × Option String × String) :
    hasKey (t₁ ++ t₂) k = (hasKey t₁ k || hasKey t₂ k) := by
  simp [hasKey, List.any_append]

theorem insertOnConflict_of_hasKey {t : List RawRow} {r : RawRow}
    (h : hasKey t (keyOf r) = true) : insertOnConflict t r = t := by
  simp [insertOnConflict, h]

theorem hasKey_insertOnConflict_self (t : List RawRow) (r : RawRow) :
    hasKey (insertOnConflict t r) (keyOf r) = true := by
  by_cases h : hasKey t (keyOf r) = true
  · simp [insertOnConflict, h]
  · simp only [insertOnConflict, h, if_false, Bool.false_eq_true]
    simp [hasKey_append, hasKey]

theorem hasKey_insertOnConflict_mono {t : List RawRow}
    {k : Option String × Option String × String} (r : RawRow)
    (h : hasKey t k = true) : hasKey (insertOnConflict t r) k = true := by
  by_cases hc : hasKey t (keyOf r) = true
  · simpa [insertOnConflict, hc] using h
  · simp only [insertOnConflict, hc, if_false, Bool.false_eq_true]
    simp [hasKey_append, h]

theorem hasKey_foldl {rows : List RawRow} :
    ∀ {t : List RawRow} {k : Option String × Option String × String},
      hasKey t k = true →
      hasKey (rows.foldl insertOnConflict t) k = true := by
  induction rows with
  | nil => intro t k h; simpa using h
  | cons a rs ih =>
    intro t k h
    exact ih (hasKey_insertOnConflict_mono a h)

theorem hasKey_foldl_mem {rows : List RawRow} {r : RawRow}
    (hr : r ∈ rows) :
    ∀ t : List RawRow,
      hasKey (rows.foldl insertOnConflict t) (keyOf r) = true := by
  induction rows with
  | nil => cases hr
  | cons a rs ih =>
    intro t
    rcases List.mem_cons.mp hr with h | h
    · subst h
      rw [List.foldl_cons]
      exact hasKey_foldl (hasKey_insertOnConflict_self t r)
    · exact ih h (insertOnConflict t a)

theorem foldl_insertOnConflict_id {rows : List RawRow} :
    ∀ {t : List RawRow}, (∀ r ∈ rows, hasKey t (keyOf r) = true) →
      rows.foldl insertOnConflict t = t := by
  induction rows with
  | nil => intro t _; rfl
  | cons a rs ih =>
    intro t h
    have ha := insertOnConflict_of_hasKey (h a (List.mem_cons_self a rs))
    rw [List.foldl_cons, ha]
    exact ih fun r hr => h r (List.mem_cons_of_mem a hr)

theorem mem_foldl_insertOnConflict {rows : List RawRow} {r : RawRow} :
    ∀ {t : List RawRow}, r ∈ rows.foldl insertOnConflict t →
      r ∈ t ∨ r ∈ rows := by
  induction rows with
  | nil => intro t h; exact Or.inl h
  | cons a rs ih =>
    intro t h
    rcases ih h with h' | h'
    · by_cases hc : hasKey t (keyOf a) = true
      · rw [insertOnConflict_of_hasKey hc] at h'
        exact Or.inl h'
      · simp only [insertOnConflict, hc, if_false, Bool.false_eq_true] at h'
        rcases List.mem_append.mp h' with h'' | h''
        · exact Or.inl h''
        · simp only [List.mem_singleton] at h''
          exact Or.inr (h'' ▸ List.mem_cons_self a rs)
    · exact Or.inr (List.mem_cons_of_mem a h')

/-! ## C1: idempotent persistence -/

/-- C1: persisting the same record set twice is idempotent: after a
first persist run, replaying the same records leaves the raw table
unchanged and inserts zero new rows — a row whose
(airport, flight_number, source key) tuple is already present is
silently skipped, never duplicated and never overwritten. -/
theorem persist_idempotent (tbl : List RawRow) (df : List DfRow) :
    (saveToPostgres (saveToPostgres tbl df).1 df).1 =
      (saveToPostgres tbl df).1 ∧
    insertedCount (saveToPostgres tbl df).1 df = 0 := by
  have key : (saveToPostgres (saveToPostgres tbl df).1 df).1 =
      (saveToPostgres tbl df).1 := by
    by_cases hdf : df.isEmpty
    · simp [saveToPostgres, hdf]
    · by_cases hrows :
        ((keptRows df).map fun p => mkRawRow p.1 p.2).isEmpty
      · simp [saveToPostgres, hdf, hrows]
      · have h1 : (saveToPostgres tbl df).1 =
            ((keptRows df).map fun p => mkRawRow p.1 p.2).foldl
              insertOnConflict tbl := by
          simp [saveToPostgres, hdf, hrows]
        rw [h1]
        simp only [saveToPostgres, hdf, hrows, if_false, Bool.false_eq_true]
        exact foldl_insertOnConflict_id fun r hr => hasKey_foldl_mem hr tbl
  refine ⟨key, ?_⟩
  unfold insertedCount
  rw [key]
  exact Nat.sub_self _

/-! ## C3: aggregation preserves derived tables on empty input -/

/-- C3: an aggregation run against an empty raw table, or one whose rows
are all dropped by the missing-field filter, terminates without touching
the three derived tables (and without raising), whatever the write
outcomes would have been. -/
theorem aggregation_preserves_on_empty (db : DB)
    (h : db.raw = [] ∨ cleanRows db.raw = []) (ro w1 w2 w3 : Bool) :
    runAnalysis db ro w1 w2 w3 = (db, false) := by
  rcases h with h | h
  · cases ro <;> simp [runAnalysis, h, cleanRows]
  · by_cases hraw : db.raw = []
    · cases ro <;> simp [runAnalysis, hraw, cleanRows]
    · cases ro <;> simp [runAnalysis, hraw, h]

/-- Concrete datastore with an empty raw table and stale derived
tables. -/
def dbEmpty : DB :=
  { raw := []
    topDest := [("Paris", 7)]
    airlines := [("LOT", 7)]
    hourly := [(9, 7)] }

theorem aggregation_preserves_on_empty_witness :
    runAnalysis dbEmpty true true true true = (dbEmpty, false) :=
  aggregation_preserves_on_empty dbEmpty (Or.inl rfl) true true true true

/-! ## C4: write failure on one derived table -/

/-- Raw table with one complete row (destination X, airline A, 08:00). -/
def rawC4 : List AnalyzerRow :=
  [{ destination := some "X", airline := some "A",
     scheduled_time := some 28800 }]

/-- Datastore whose three derived tables hold stale pre-run contents
that differ from what this cycle would compute. -/
def dbC4 : DB :=
  { raw := rawC4
    topDest := [("stale", 9)]
    airlines := [("stale", 9)]
    hourly := [(0, 9)] }

/-- C4 counterexample: with the first table replace failing and the
other two available (they would succeed and would change their tables),
the run leaves the airline and hourly tables at their stale pre-run
contents — the remaining replaces are never attempted, because all
three writes sit in one try block whose except clause re-raises. -/
theorem analysis_writes_not_independent_cex :
    (runAnalysis dbC4 true false true true).1 = dbC4 ∧
    (runAnalysis dbC4 true false true true).2 = true ∧
    airlinesTable dbC4.raw = [("A", 1)] ∧
    dbC4.airlines = [("stale", 9)] ∧
    hourlyTable dbC4.raw = [(8, 1)] ∧
    dbC4.hourly = [(0, 9)] := by
  decide

/-- C4 amended: the three derived-table replaces are attempted in order
(destinations, airlines, hourly) inside one try block; the first failure
leaves its own table and every later table at their previous contents
and raises, while replaces completed before the failure are kept.  Each
individual replace is still atomic (a failed replace leaves that table
unchanged). -/
theorem analysis_write_order (db : DB) (h1 : db.raw ≠ [])
    (h2 : cleanRows db.raw ≠ []) (w2 w3 : Bool) :
    runAnalysis db true false w2 w3 = (db, true) ∧
    runAnalysis db true true false w3 =
      ({ db with topDest := topDestTable db.raw }, true) ∧
    runAnalysis db true true true false =
      ({ db with topDest := topDestTable db.raw,
                 airlines := airlinesTable db.raw }, true) ∧
    runAnalysis db true true true true =
      ({ db with topDest := topDestTable db.raw,
                 airlines := airlinesTable db.raw,
                 hourly := hourlyTable db.raw }, false) := by
  refine ⟨?_, ?_, ?_, ?_⟩ <;> simp [runAnalysis, h1, h2]

theorem analysis_write_order_witness :
    runAnalysis dbC4 true false true true = (dbC4, true) ∧
    runAnalysis dbC4 true true false true =
      ({ dbC4 with topDest := topDestTable dbC4.raw }, true) ∧
    runAnalysis dbC4 true true true false =
      ({ dbC4 with topDest := topDestTable dbC4.raw,
                   airlines := airlinesTable dbC4.raw }, true) ∧
    runAnalysis dbC4 true true true true =
      ({ dbC4 with topDest := topDestTable dbC4.raw,
                   airlines := airlinesTable dbC4.raw,
                   hourly := hourlyTable dbC4.raw }, false) :=
  analysis_write_order dbC4 (by decide) (by decide) true true

/-! ## C9: persist on empty input, and its return value -/

/-- A dataframe row that normalizes and inserts cleanly. -/
def dfC9 : DfRow :=
  { airport := some "chopin"
    flight_number := some "X1"
    destination := none
    airline := none
    scheduled_time := none
    data_timesch := some "20260101120000" }

/-- C9 counterexample: `save_to_postgres` never returns an insert
count.  On empty input it returns Python None, not 0; and on an input
that actually inserts one row it still returns None, not 1. -/
theorem persist_returns_no_count_cex :
    (saveToPostgres [] []).2 ≠ some 0 ∧
    (saveToPostgres [] [dfC9]).2 ≠ some 1 ∧
    (saveToPostgres [] [dfC9]).1.length = 1 := by
  decide

/-- C9 amended: persist on empty input (or input emptied by
normalization) is a no-op — it performs no datastore writes and does not
raise — but it returns Python None rather than the count 0; in fact the
function always returns None and never reports an insert count. -/
theorem persist_empty_noop (tbl : List RawRow) (df : List DfRow) :
    (saveToPostgres tbl df).2 = none ∧
    (df = [] → (saveToPostgres tbl df).1 = tbl) ∧
    (keptRows df = [] → (saveToPostgres tbl df).1 = tbl) := by
  refine ⟨?_, ?_, ?_⟩
  · by_cases hdf : df.isEmpty
    · simp [saveToPostgres, hdf]
    · by_cases hrows :
        ((keptRows df).map fun p => mkRawRow p.1 p.2).isEmpty
      · simp [saveToPostgres, hdf, hrows]
      · simp [saveToPostgres, hdf, hrows]
  · intro h
    subst h
    simp [saveToPostgres]
  · intro h
    by_cases hdf : df.isEmpty
    · simp [saveToPostgres, hdf]
    · simp [saveToPostgres, hdf, h]

/-- A pre-existing raw-table row. -/
def rawStale : RawRow :=
  { airport := some "chopin"
    flight_number := some "LO1"
    destination := some "Oslo"
    airline := some "SAS"
    scheduled_time := some 20260101080000
    data_timesch := "20260101080000" }

theorem persist_empty_noop_witness :
    (saveToPostgres [rawStale] []).1 = [rawStale] ∧
    (saveToPostgres [rawStale] []).2 = none :=
  ⟨(persist_empty_noop [rawStale] []).2.1 rfl,
   (persist_empty_noop [rawStale] []).1⟩

/-! ## C5: retry and backoff -/

theorem retryAux_all_fail (ok : Nat → Bool) (hfail : ∀ i, ok i = false)
    (m : Nat) :
    ∀ r a, 1 ≤ r → a + r = m →
      retryAux ok (m - 1) r a =
        (.error (), r, (List.range' a (r - 1)).map (2 ^ ·)) := by
  intro r
  induction r with
  | zero => intro a h _; omega
  | succ n ih =>
    intro a _ hsum
    by_cases hn : n = 0
    · subst hn
      have ha : a = m - 1 := by omega
      simp [retryAux, hfail, ha]
    · have hne : a ≠ m - 1 := by omega
      rw [retryAux]
      simp only [hfail a, Bool.false_eq_true, if_false, hne, if_false]
      rw [ih (a + 1) (by omega) (by omega)]
      have hn' : n = (n - 1) + 1 := by omega
      rw [show (n + 1) - 1 = (n - 1) + 1 by omega,
        List.range'_succ a (n - 1) 1, List.map_cons]

theorem pow_two_chain (n : Nat) :
    ∀ a : Nat, List.Chain' (· ≤ ·) ((List.range' a n).map (2 ^ ·)) := by
  induction n with
  | zero => intro a; simp
  | succ k ih =>
    intro a
    cases k with
    | zero => simp
    | succ k' =>
      rw [List.range'_succ a (k' + 1) 1, List.map_cons,
        List.range'_succ (a + 1) k' 1, List.map_cons]
      refine List.chain'_cons.mpr ⟨?_, ?_⟩
      · exact Nat.pow_le_pow_right (by omega) (by omega)
      · have h := ih (a + 1)
        rwa [List.range'_succ (a + 1) k' 1, List.map_cons] at h

/-- C5: if every connection attempt fails, `get_db_engine` makes exactly
`max_retries` attempts, sleeping `base_delay * 2 ^ attempt` seconds
before each retry (`base_delay` is 1 in the code; attempt indices start
at 0, so the delays are `2 ^ 0 .. 2 ^ (max_retries - 2)` and are
non-decreasing), and the final attempt's failure propagates as a raised
error instead of being swallowed. -/
theorem retry_exhausts_attempts (m : Nat) (hm : 0 < m) (ok : Nat → Bool)
    (hfail : ∀ i, ok i = false) :
    getDbEngine ok m =
      (.error (), m, (List.range (m - 1)).map (2 ^ ·)) ∧
    List.Chain' (· ≤ ·) ((List.range (m - 1)).map (2 ^ ·)) := by
  constructor
  · have h := retryAux_all_fail ok hfail m m 0 hm (by omega)
    rw [getDbEngine, h, List.range_eq_range']
  · rw [List.range_eq_range']
    exact pow_two_chain (m - 1) 0

theorem retry_exhausts_attempts_witness :
    getDbEngine (fun _ => false) 3 =
      (.error (), 3, (List.range 2).map (2 ^ ·)) ∧
    List.Chain' (· ≤ ·) ((List.range 2).map (2 ^ ·)) :=
  retry_exhausts_attempts 3 (by omega) (fun _ => false) (fun _ => rfl)

/-! ## C2: convergence of the reveal-more loop -/

theorem crawlLoop_succ (L : Listing) (fuel : Nat) (prev : Int)
    (nc j : Nat) :
    crawlLoop L (fuel + 1) prev nc j =
      (if 2 ≤ (if (L.rowCount j : Int) = prev then nc + 1 else 0)
       then some j
       else if L.hasButton j = false then some j
       else crawlLoop L fuel (L.rowCount j)
         (if (L.rowCount j : Int) = prev then nc + 1 else 0) (j + 1)) :=
  rfl

/-- Once the row count is constant from click `j` on, the loop stops
within three more body entries and at most two more clicks. -/
theorem crawlLoop_const (L : Listing) (j : Nat)
    (hc : ∀ i, L.rowCount (j + i) = L.rowCount j) (prev : Int)
    (nc : Nat) :
    ∃ c, crawlLoop L 3 prev nc j = some c ∧ c ≤ j + 2 := by
  have e1 : L.rowCount (j + 1) = L.rowCount j := hc 1
  have e2 : L.rowCount (j + 2) = L.rowCount j := hc 2
  by_cases h1 : ((L.rowCount j : Int)) = prev
  · by_cases h2 : 2 ≤ nc + 1
    · refine ⟨j, ?_, by omega⟩
      show crawlLoop L (2 + 1) prev nc j = some j
      rw [crawlLoop_succ]
      simp [h1, h2]
    · by_cases hb : L.hasButton j = false
      · refine ⟨j, ?_, by omega⟩
        show crawlLoop L (2 + 1) prev nc j = some j
        rw [crawlLoop_succ]
        simp [h1, h2, hb]
      · refine ⟨j + 1, ?_, by omega⟩
        have h3 : 2 ≤ nc + 1 + 1 := by omega
        show crawlLoop L (2 + 1) prev nc j = some (j + 1)
        rw [crawlLoop_succ]
        simp [h1, h2, hb]
        show crawlLoop L (1 + 1) prev (nc + 1) (j + 1) = some (j + 1)
        rw [crawlLoop_succ]
        simp [e1, h1, h3]
  · by_cases hb : L.hasButton j = false
    · refine ⟨j, ?_, by omega⟩
      show crawlLoop L (2 + 1) prev nc j = some j
      rw [crawlLoop_succ]
      simp [h1, hb]
    · by_cases hb2 : L.hasButton (j + 1) = false
      · refine ⟨j + 1, ?_, by omega⟩
        show crawlLoop L (2 + 1) prev nc j = some (j + 1)
        rw [crawlLoop_succ]
        simp only [if_neg h1]
        simp only [show ¬(2 ≤ (0 : Nat)) by omega, if_false,
          if_neg hb]
        show crawlLoop L (1 + 1) (L.rowCount j) 0 (j + 1) = some (j + 1)
        rw [crawlLoop_succ]
        simp [e1, hb2]
      · refine ⟨j + 2, ?_, by omega⟩
        show crawlLoop L (2 + 1) prev nc j = some (j + 2)
        rw [crawlLoop_succ]
        simp only [if_neg h1]
        simp only [show ¬(2 ≤ (0 : Nat)) by omega, if_false,
          if_neg hb]
        show crawlLoop L (1 + 1) (L.rowCount j) 0 (j + 1) = some (j + 2)
        rw [crawlLoop_succ]
        simp only [e1, if_pos rfl]
        simp only [show ¬(2 ≤ (1 : Nat)) by omega, if_false,
          if_neg hb2]
        show crawlLoop L (0 + 1) (L.rowCount j) 1 (j + 2) = some (j + 2)
        rw [crawlLoop_succ]
        simp [e2]

/-- Descending to the constant region: with the row count constant from
click `k` on, the loop started `d = k - j` clicks before the region
terminates with at most `k + 2` clicks given `d + 3` body entries. -/
theorem crawlLoop_descend (L : Listing) (k : Nat)
    (hk : ∀ i, L.rowCount (k + i) = L.rowCount k) :
    ∀ (d j : Nat) (prev : Int) (nc : Nat), j + d = k →
      ∃ c, crawlLoop L (d + 3) prev nc j = some c ∧ c ≤ k + 2 := by
  intro d
  induction d with
  | zero =>
    intro j prev nc hj
    have hj' : j = k := by omega
    subst hj'
    exact crawlLoop_const L j hk prev nc
  | succ n ih =>
    intro j prev nc hj
    by_cases h1 : 2 ≤ (if ((L.rowCount j : Int)) = prev then nc + 1 else 0)
    · refine ⟨j, ?_, by omega⟩
      show crawlLoop L ((n + 3) + 1) prev nc j = some j
      rw [crawlLoop_succ, if_pos h1]
    · by_cases hb : L.hasButton j = false
      · refine ⟨j, ?_, by omega⟩
        show crawlLoop L ((n + 3) + 1) prev nc j = some j
        rw [crawlLoop_succ, if_neg h1, if_pos hb]
      · obtain ⟨c, hcall, hc⟩ := ih (j + 1) (L.rowCount j)
          (if ((L.rowCount j : Int)) = prev then nc + 1 else 0) (by omega)
        refine ⟨c, ?_, hc⟩
        show crawlLoop L ((n + 3) + 1) prev nc j = some c
        rw [crawlLoop_succ, if_neg h1, if_neg hb]
        exact hcall

/-- C2: against a listing source whose visible-row count stops growing
after `k` reveal-triggers (it is constant from click `k` on), the
extraction loop always terminates and performs at most `k + 2`
reveal-trigger iterations; `k + 3` loop-body entries suffice (the last
entry only detects convergence and triggers nothing), so the loop never
runs indefinitely. -/
theorem extraction_converges (L : Listing) (k : Nat)
    (hk : ∀ i, L.rowCount (k + i) = L.rowCount k) :
    ∃ c, crawl L (k + 3) = some c ∧ c ≤ k + 2 :=
  crawlLoop_descend L k hk k 0 (-1) 0 (by omega)

/-- A listing that shows five rows from the start and always offers the
reveal-more control: it stops growing after zero triggers. -/
def listingFlat : Listing := ⟨fun _ => 5, fun _ => true⟩

theorem extraction_converges_witness :
    ∃ c, crawl listingFlat (0 + 3) = some c ∧ c ≤ 0 + 2 :=
  extraction_converges listingFlat 0 (fun _ => rfl)

/-! ## C6: trimming, and the fate of empty strings -/

/-- A candidate row whose airline text is the empty string. -/
def dfC6 : DfRow :=
  { airport := some "chopin"
    flight_number := some "LO123"
    destination := some "Paris"
    airline := some ""
    scheduled_time := none
    data_timesch := some "20260101120000" }

/-- C6 counterexample: a record whose airline is the empty string is
persisted with the empty string, not null — normalization only maps the
markers "nan" and "None" to null, never the empty string. -/
theorem empty_string_not_nulled_cex :
    dfC6.airline = some "" ∧
    ((saveToPostgres [] [dfC6]).1.map (·.airline)) = [some ""] := by
  decide

/-- An optional text value that is either absent or the strip of some
string (hence carries no leading or trailing whitespace). -/
def trimmedOpt (v : Option String) : Prop :=
  v = none ∨ ∃ s, v = some (pyStrip s)

theorem normalizeField_trimmedOpt (v : Option String) :
    trimmedOpt (normalizeField v) := by
  unfold trimmedOpt normalizeField
  by_cases h : pyStrip (pyStr v) = "nan" ∨ pyStrip (pyStr v) = "None"
  · simp [h]
  · exact Or.inr ⟨pyStr v, by simp [h]⟩

/-- C6 amended: before a record is persisted, every text field is
trimmed of leading and trailing whitespace and the stringified-missing
markers "nan" and "None" are coerced to null; but an empty-string value
is NOT coerced to null — it is persisted as the empty string. -/
theorem persist_trims_text_fields :
    (∀ (tbl : List RawRow) (df : List DfRow) (r : RawRow),
        r ∈ (saveToPostgres tbl df).1 →
        r ∈ tbl ∨ (trimmedOpt r.airport ∧ trimmedOpt r.flight_number ∧
          trimmedOpt r.destination ∧ trimmedOpt r.airline)) ∧
    normalizeField (some "nan") = none ∧
    normalizeField (some "None") = none ∧
    normalizeField (some "") = some "" := by
  refine ⟨?_, by decide, by decide, by decide⟩
  intro tbl df r hr
  by_cases hdf : df.isEmpty
  · simp only [saveToPostgres, hdf, if_true] at hr
    exact Or.inl hr
  · by_cases hrows : ((keptRows df).map fun p => mkRawRow p.1 p.2).isEmpty
    · simp only [saveToPostgres, hdf, hrows, if_true, if_false,
        Bool.false_eq_true] at hr
      exact Or.inl hr
    · simp only [saveToPostgres, hdf, hrows, if_false,
        Bool.false_eq_true] at hr
      rcases mem_foldl_insertOnConflict hr with h | h
      · exact Or.inl h
      · right
        obtain ⟨p, hp, hpr⟩ := List.mem_map.mp h
        rw [keptRows] at hp
        obtain ⟨c, hcl, hg⟩ := List.mem_filterMap.mp hp
        obtain ⟨d, _, hd⟩ := List.mem_map.mp hcl
        cases hdt : c.data_timesch with
        | none => simp [hdt] at hg
        | some ts =>
          simp only [hdt] at hg
          obtain rfl := Option.some.inj hg
          subst hd
          subst hpr
          exact ⟨normalizeField_trimmedOpt _, normalizeField_trimmedOpt _,
            normalizeField_trimmedOpt _, normalizeField_trimmedOpt _⟩

/-- The raw row that persisting `dfC6` into an empty table produces. -/
def rawC6 : RawRow :=
  { airport := some "chopin"
    flight_number := some "LO123"
    destination := some "Paris"
    airline := some ""
    scheduled_time := none
    data_timesch := "20260101120000" }

theorem persist_trims_text_fields_witness :
    rawC6 ∈ ([] : List RawRow) ∨
      (trimmedOpt rawC6.airport ∧ trimmedOpt rawC6.flight_number ∧
        trimmedOpt rawC6.destination ∧ trimmedOpt rawC6.airline) :=
  persist_trims_text_fields.1 [] [dfC6] rawC6 (by decide)

/-! ## C7: short keys dropped, unparseable timestamps kept -/

/-- C7: a listing row whose schedule token is missing or shorter than 8
characters is dropped by the parser and so never reaches the raw table,
while a persisted row whose normalized, truthy scheduled-time string
fails to parse as a timestamp is still inserted — with null
`scheduled_time` — rather than being dropped. -/
theorem short_key_dropped_unparsed_kept :
    (∀ (today : String) (tr : TrRow) (trs : List TrRow),
        (effTs tr = none ∨ ∃ s, effTs tr = some s ∧ s.length < 8) →
        parseDepartures today (tr :: trs) = parseDepartures today trs) ∧
    (∀ (tbl : List RawRow) (c : DfRow) (ts st : String),
        normalizeField c.data_timesch = some ts →
        normalizeField c.scheduled_time = some st → st ≠ "" →
        parseYmdHms st = none →
        hasKey tbl (normalizeField c.airport,
          normalizeField c.flight_number, ts) = false →
        ∃ r, (saveToPostgres tbl [c]).1 = tbl ++ [r] ∧
          r.scheduled_time = none ∧ r.data_timesch = ts) := by
  constructor
  · intro today tr trs h
    have hnone : parseRow today tr = none := by
      rcases h with h | ⟨s, hs, hlen⟩
      · simp [parseRow, h]
      · have hcond : s = "" ∨ s.length < 8 := Or.inr hlen
        simp [parseRow, hs, hcond]
    simp [parseDepartures, List.filterMap_cons, hnone]
  · intro tbl c ts st hts hst hne hparse hkey
    have hts2 : (normalizeRow c).data_timesch = some ts := hts
    have hst2 : (normalizeRow c).scheduled_time = some st := hst
    have hkept : keptRows [c] = [(normalizeRow c, ts)] := by
      simp [keptRows, hts2]
    refine ⟨mkRawRow (normalizeRow c) ts, ?_, ?_, rfl⟩
    · have hsave : (saveToPostgres tbl [c]).1 =
          insertOnConflict tbl (mkRawRow (normalizeRow c) ts) := by
        simp [saveToPostgres, hkept]
      have hkey2 : hasKey tbl (keyOf (mkRawRow (normalizeRow c) ts)) =
          false := hkey
      rw [hsave, insertOnConflict, hkey2]
      simp
    · show (mkRawRow (normalizeRow c) ts).scheduled_time = none
      simp [mkRawRow, hst2, hne, hparse]

/-- A listing row whose schedule token has only 4 characters. -/
def trShort : TrRow :=
  { attrTimesch := some "2026"
    attrTimeschAlt := none
    cells := ["", "Paris", "LO1"] }

/-- A candidate whose schedule token passes the length gate but fails
the full 14-digit timestamp parse. -/
def dfC7 : DfRow :=
  { airport := some "chopin"
    flight_number := some "X2"
    destination := some "Rome"
    airline := some "AZ"
    scheduled_time := some "20260101"
    data_timesch := some "20260101" }

theorem short_key_dropped_unparsed_kept_witness :
    parseDepartures "20260101" [trShort] = parseDepartures "20260101" [] ∧
    (∃ r, (saveToPostgres [] [dfC7]).1 = [] ++ [r] ∧
      r.scheduled_time = none ∧ r.data_timesch = "20260101") :=
  ⟨short_key_dropped_unparsed_kept.1 "20260101" trShort []
      (Or.inr ⟨"2026", by decide, by decide⟩),
   short_key_dropped_unparsed_kept.2 [] dfC7 "20260101" "20260101"
      (by decide) (by decide) (by decide) (by decide) (by decide)⟩

/-! ## C8: same-day filter -/

/-- C8: a parsed listing row whose schedule token does not start with
the today marker is excluded from the extraction output even when
otherwise well-formed, while a row matching today (with enough cells)
is retained. -/
theorem same_day_filter (today : String) (tr : TrRow) (s : String)
    (hts : effTs tr = some s) (hlen : 8 ≤ s.length) :
    (pyTake s 8 ≠ today → parseRow today tr = none) ∧
    (pyTake s 8 = today → 3 ≤ tr.cells.length →
      (parseRow today tr).isSome = true) := by
  have hs : ¬(s = "" ∨ s.length < 8) := by
    rintro (rfl | h)
    · exact absurd hlen (by decide)
    · omega
  constructor
  · intro hne
    simp [parseRow, hts, hs, hne]
  · intro heq hcells
    have hc : ¬(tr.cells.length < 3) := by omega
    simp [parseRow, hts, hs, heq, hc]

/-- A well-formed listing row dated a year before the today marker. -/
def trPast : TrRow :=
  { attrTimesch := some "20250101120000"
    attrTimeschAlt := none
    cells := ["", "Oslo", "SK1", "", "SAS"] }

/-- The same listing row dated the today marker. -/
def trToday : TrRow :=
  { attrTimesch := some "20260101120000"
    attrTimeschAlt := none
    cells := ["", "Oslo", "SK1", "", "SAS"] }

theorem same_day_filter_witness :
    parseRow "20260101" trPast = none ∧
    (parseRow "20260101" trToday).isSome = true :=
  ⟨(same_day_filter "20260101" trPast "20250101120000" (by decide)
      (by decide)).1 (by decide),
   (same_day_filter "20260101" trToday "20260101120000" (by decide)
      (by decide)).2 (by decide) (by decide)⟩

/-! ## C10: the three aggregates are consistent with the filtered rows -/

theorem length_filterMap_isSome {α β : Type} (f : α → Option β) :
    ∀ l : List α, (∀ x ∈ l, (f x).isSome = true) →
      (l.filterMap f).length = l.length := by
  intro l
  induction l with
  | nil => intro _; rfl
  | cons a as ih =>
    intro h
    obtain ⟨b, hb⟩ :=
      Option.isSome_iff_exists.mp (h a (List.mem_cons_self a as))
    simp [List.filterMap_cons, hb,
      ih fun x hx => h x (List.mem_cons_of_mem a hx)]

theorem insertSorted_perm {α : Type} (le : α → α → Bool) (x : α) :
    ∀ l : List α, (insertSorted le x l).Perm (x :: l) := by
  intro l
  induction l with
  | nil => exact List.Perm.refl _
  | cons y ys ih =>
    by_cases h : le x y = true
    · rw [insertSorted, if_pos h]
    · rw [insertSorted, if_neg h]
      exact (ih.cons y).trans (List.Perm.swap x y ys)

theorem sortBy_perm {α : Type} (le : α → α → Bool) :
    ∀ l : List α, (sortBy le l).Perm l := by
  intro l
  induction l with
  | nil => exact List.Perm.refl _
  | cons x xs ih =>
    have hstep : sortBy le (x :: xs) = insertSorted le x (sortBy le xs) :=
      rfl
    rw [hstep]
    exact (insertSorted_perm le x (sortBy le xs)).trans (ih.cons x)

theorem valueCounts_sum {α : Type} [DecidableEq α] (l : List α) :
    ((valueCounts l).map Prod.snd).sum = l.length := by
  unfold valueCounts
  rw [List.map_map]
  simpa [Function.comp] using List.sum_map_count_dedup_eq_length l

theorem cleanRows_isSome {raw : List AnalyzerRow} {r : AnalyzerRow}
    (h : r ∈ cleanRows raw) :
    r.destination.isSome = true ∧ r.airline.isSome = true ∧
      r.scheduled_time.isSome = true := by
  have h2 := (List.mem_filter.mp h).2
  simp only [Bool.and_eq_true] at h2
  exact ⟨h2.1.1, h2.1.2, h2.2⟩

theorem destList_length (raw : List AnalyzerRow) :
    (destList raw).length = (cleanRows raw).length :=
  length_filterMap_isSome _ _ fun _ hr => (cleanRows_isSome hr).1

theorem airlineList_length (raw : List AnalyzerRow) :
    (airlineList raw).length = (cleanRows raw).length :=
  length_filterMap_isSome _ _ fun _ hr => (cleanRows_isSome hr).2.1

theorem hourList_length (raw : List AnalyzerRow) :
    (hourList raw).length = (cleanRows raw).length := by
  unfold hourList
  rw [List.length_map]
  exact length_filterMap_isSome _ _ fun _ hr => (cleanRows_isSome hr).2.2

theorem hourOf_lt (t : Nat) : hourOf t < 24 :=
  Nat.mod_lt _ (by omega)

/-- C10: for a non-empty raw table the three aggregates are computed
from the same filtered row set: the destination counts (before the
top-10 cut), the airline counts (before the cut), and the hourly
flight counts each sum to the number of rows surviving the
missing-field filter; every hour key is in 0..23; and no hour key
appears twice. -/
theorem aggregation_counts_consistent (raw : List AnalyzerRow)
    (_hne : raw ≠ []) :
    ((valueCounts (destList raw)).map Prod.snd).sum =
        (cleanRows raw).length ∧
    ((valueCounts (airlineList raw)).map Prod.snd).sum =
        (cleanRows raw).length ∧
    ((hourlyTable raw).map Prod.snd).sum = (cleanRows raw).length ∧
    (∀ p ∈ hourlyTable raw, p.1 < 24) ∧
    ((hourlyTable raw).map Prod.fst).Nodup := by
  refine ⟨?_, ?_, ?_, ?_, ?_⟩
  · rw [valueCounts_sum]
    exact destList_length raw
  · rw [valueCounts_sum]
    exact airlineList_length raw
  · have hperm : ((hourlyTable raw).map Prod.snd).Perm
        ((valueCounts (hourList raw)).map Prod.snd) :=
      (sortBy_perm _ _).map _
    rw [hperm.sum_eq, valueCounts_sum]
    exact hourList_length raw
  · intro p hp
    have hp' : p ∈ valueCounts (hourList raw) :=
      (sortBy_perm _ _).mem_iff.mp hp
    obtain ⟨v, hv, hvp⟩ := List.mem_map.mp hp'
    have hv' : v ∈ hourList raw := List.mem_dedup.mp hv
    obtain ⟨t, _, ht⟩ := List.mem_map.mp hv'
    rw [← hvp]
    simpa [← ht] using hourOf_lt t
  · have hperm : ((hourlyTable raw).map Prod.fst).Perm
        ((valueCounts (hourList raw)).map Prod.fst) :=
      (sortBy_perm _ _).map _
    have hkeys : (valueCounts (hourList raw)).map Prod.fst =
        (hourList raw).dedup := by
      unfold valueCounts
      rw [List.map_map]
      exact List.map_id _
    refine hperm.symm.nodup ?_
    rw [hkeys]
    exact List.nodup_dedup _

/-- Two complete rows: destinations X and Y, both airline A, hours 8
and 8 (28800 s and 30000 s are both within hour 8). -/
def rawC10 : List AnalyzerRow :=
  [{ destination := some "X", airline := some "A",
     scheduled_time := some 28800 },
   { destination := some "Y", airline := some "A",
     scheduled_time := some 30000 }]

theorem aggregation_counts_consistent_witness :
    ((valueCounts (destList rawC10)).map Prod.snd).sum =
        (cleanRows rawC10).length ∧
    ((valueCounts (airlineList rawC10)).map Prod.snd).sum =
        (cleanRows rawC10).length ∧
    ((hourlyTable rawC10).map Prod.snd).sum = (cleanRows rawC10).length ∧
    (∀ p ∈ hourlyTable rawC10, p.1 < 24) ∧
    ((hourlyTable rawC10).map Prod.fst).Nodup :=
  aggregation_counts_consistent rawC10 (by decide)

end AirportEtl
